import Mathlib

/-!
Shallow embedding of the subtake scan engine (Go), for checking its
natural-language specification.  Strings are modelled as lists of
characters (`Str`), matching Go's treatment of a `string` as a sequence
of units with slicing by index.  Nondeterministic inputs (network
responses, goroutine completion order, the standard-library regexp
engine) are parameters of the embedded functions.
-/

set_option maxHeartbeats 1000000

namespace Subtake

/-- Go strings, as sequences of characters. -/
abbrev Str := List Char

/-- Embeds `strings.ToLower`. -/
def toLowerStr (s : Str) : Str := s.map Char.toLower

/-- First index at which `pat` occurs in `body` (Go `strings.Index`;
`none` plays the role of Go's `-1`). -/
def indexOfSub (body pat : Str) : Option Nat :=
  if pat.isPrefixOf body then some 0
  else
    match body with
    | [] => none
    | _ :: rest => (indexOfSub rest pat).map (· + 1)

/-- Embeds `strings.Contains`. -/
def containsSub (body pat : Str) : Bool := (indexOfSub body pat).isSome

/-- Embeds `fingerprints.Fingerprint` (part_000): one signature of the catalog. -/
structure Fingerprint where
  service : Str
  pattern : Str
  notes : Str
  regex : Bool
deriving DecidableEq, Repr

/-- Go's `regexp` package, abstracted: compiling a pattern either fails
with an error message or yields a matcher on strings
(`regexp.Compile` / `Regexp.MatchString`). -/
structure RegexEngine where
  compile : Str → Except Str (Str → Bool)

/-- Headers map, one value per name. -/
abbrev Headers := List (Str × Str)

/-- Embeds `Fingerprint.Match` (part_000 lines 90-101): regex fingerprints
compile the pattern and test the raw content; substring fingerprints do
a case-insensitive containment test.  Returns (matched, error). -/
def fingerprintMatch (E : RegexEngine) (f : Fingerprint) (content : Str)
    (_headers : Headers) : Bool × Option Str :=
  if f.regex then
    match E.compile f.pattern with
    | .error e =>
        (false, some ("invalid regex pattern ".data ++ f.pattern ++ ": ".data ++ e))
    | .ok m => (m content, none)
  else
    (containsSub (toLowerStr content) (toLowerStr f.pattern), none)

/-- Embeds `Fingerprints.Match` (part_000 lines 72-87): iterate the catalog in
order, fail fast on the first fingerprint error (returning nil matches),
otherwise collect the matching fingerprints in order. -/
def fingerprintsMatch (E : RegexEngine) (fps : List Fingerprint) (content : Str)
    (headers : Headers) : List Fingerprint × Option Str :=
  match fps with
  | [] => ([], none)
  | f :: rest =>
    match fingerprintMatch E f content headers with
    | (_, some e) => ([], some e)
    | (matched, none) =>
      match fingerprintsMatch E rest content headers with
      | (_, some e) => ([], some e)
      | (ms, none) => (if matched then f :: ms else ms, none)

/-- Embeds `types.Evidence` (result.go): one record per matching fingerprint. -/
structure Evidence where
  service : Str
  pattern : Str
  notes : Str
  snippet : Str
deriving DecidableEq, Repr

/-- Embeds `types.HTTPResponse` (result.go): per-protocol fetch record stored on
the scan result.  `error = []` (empty string) means the fetch succeeded,
matching Go's zero-value string field. -/
structure HTTPResponse where
  url : Str
  statusCode : Int
  headers : Headers
  body : Str
  error : Str
deriving DecidableEq, Repr

/-- Embeds `types.Result` (result.go): the ScanResult of one subdomain.  Field
defaults are Go zero values; `scan_time` (wall-clock timestamp) is not
modelled.  The `http_response`/`https_response` pointers become options. -/
structure Result where
  subdomain : Str
  vulnerable : Bool := false
  status : Str := []
  evidence : List Evidence := []
  error : Str := []
  httpResponse : Option HTTPResponse := none
  httpsResponse : Option HTTPResponse := none
deriving DecidableEq, Repr

/-- Embeds `httpclient.Response` (client.go): what one logical `Client.Get`
returns; `error = none` iff the fetch produced a response. -/
structure Response where
  statusCode : Int := 0
  headers : Headers := []
  body : Str := []
  error : Option Str := none
deriving DecidableEq, Repr

/-- Embeds `scanner.extractSnippet` (scanner.go lines 278-299): find the first
case-insensitive occurrence of the literal pattern text in the body and
return the slice from 100 before the match start to 100 after the match
end, clipped to the body; empty when the pattern text does not occur. -/
def extractSnippet (body pattern : Str) : Str :=
  match indexOfSub (toLowerStr body) (toLowerStr pattern) with
  | none => []
  | some idx =>
    let start := idx - 100
    let stop := min (idx + pattern.length + 100) body.length
    (body.take stop).drop start

/-- The Evidence record built for one matching fingerprint (scanner.go
lines 255-261): the snippet always comes from the literal pattern text,
also for regex fingerprints. -/
def evidenceFor (body : Str) (m : Fingerprint) : Evidence :=
  { service := m.service
    pattern := m.pattern
    notes := m.notes
    snippet := extractSnippet body m.pattern }

/-- Embeds `scanner.checkVulnerabilities` (scanner.go lines 230-276): run the
matcher on the chosen response body; a matcher error yields status
"error"; a non-empty match list yields status "vulnerable" with one
Evidence per match; otherwise status "not vulnerable". -/
def checkVulnerabilities (E : RegexEngine) (fps : List Fingerprint)
    (result : Result) (httpResp : HTTPResponse) : Result :=
  match fingerprintsMatch E fps httpResp.body httpResp.headers with
  | (_, some e) =>
    { result with
      status := "error".data
      error := "fingerprint matching error: ".data ++ e }
  | (ms, none) =>
    if ms.length > 0 then
      { result with
        vulnerable := true
        status := "vulnerable".data
        evidence := result.evidence ++ ms.map (evidenceFor httpResp.body) }
    else
      { result with status := "not vulnerable".data }

/-- Embeds `scanner.tryProtocol` (scanner.go lines 211-228): wrap the client's
response for one protocol into an HTTPResponse with `scheme://subdomain`
as URL; a client error becomes the error string, else it stays empty. -/
def tryProtocol (subdomain protocol : Str) (resp : Response) : HTTPResponse :=
  { url := protocol ++ "://".data ++ subdomain
    statusCode := resp.statusCode
    headers := resp.headers
    body := resp.body
    error := resp.error.getD [] }

/-- Embeds `scanner.scanSubdomain` (scanner.go lines 180-209): fetch both
protocols (the two `Response` arguments are what `Client.Get` returned
for https resp. http), store both, match on the https body when that
fetch succeeded, else the http body, else report an error preferring the
https message, then the http message, then a generic one. -/
def scanSubdomain (E : RegexEngine) (fps : List Fingerprint)
    (subdomain : Str) (httpsNet httpNet : Response) : Result :=
  let httpsResult := tryProtocol subdomain ("https".data) httpsNet
  let httpResult := tryProtocol subdomain ("http".data) httpNet
  let result : Result :=
    { subdomain := subdomain
      httpsResponse := some httpsResult
      httpResponse := some httpResult }
  if httpsResult.error = [] then
    checkVulnerabilities E fps result httpsResult
  else if httpResult.error = [] then
    checkVulnerabilities E fps result httpResult
  else
    { result with
      status := "error".data
      error :=
        if httpsResult.error ≠ [] then httpsResult.error
        else if httpResult.error ≠ [] then httpResult.error
        else "both HTTPS and HTTP requests failed".data }

/-- The literal separator inserted by body truncation (client.go). -/
def truncSep : Str := "\n... [truncated] ...\n".data

/-- The truncation stage of `httpclient.readBody` (client.go lines
147-156), applied to the (possibly decompressed) bytes: bodies of at
most 16384 units pass through verbatim, larger ones become the first
8192 units, the separator, and the last 8192 units. -/
def truncateBody (allData : Str) : Str :=
  if allData.length ≤ 16384 then allData
  else allData.take 8192 ++ truncSep ++ allData.drop (allData.length - 8192)

/-- Embeds `httpclient.readBody` (client.go lines 122-157) after the raw read:
gzip-magic bodies are decompressed by the abstract `decompress` when it
succeeds (failure falls back to the raw bytes), then truncated. -/
def readBody (decompress : Str → Option Str) (allData : Str) : Str :=
  let data :=
    match allData with
    | c1 :: c2 :: _ =>
      if c1 = Char.ofNat 0x1f ∧ c2 = Char.ofNat 0x8b then
        (decompress allData).getD allData
      else allData
    | _ => allData
  truncateBody data

/-- Outcome of the `Client.Get` retry loop: how many `doRequest`
attempts were made, the sleep durations (seconds, in order), and the
returned response. -/
structure GetOutcome where
  attempts : Nat
  sleeps : List Nat
  response : Response
deriving DecidableEq, Repr

/-- Error message built after the retry loop exhausts its attempts
(client.go line 78). -/
def failMsg (attemptCount : Nat) (lastErr : Str) : Str :=
  "request failed after ".data ++ (toString attemptCount).data
    ++ " attempts: ".data ++ lastErr

/-- One state of the `Client.Get` loop (client.go lines 59-80): `net i`
is what the i-th `doRequest` call yields.  At each attempt index at most
`retries`, sleep `attempt` seconds when `attempt > 0`, then issue the
request; any response returns immediately, an error records itself and
continues; past the last index the loop falls through to the failure
response wrapping the last error. -/
def getGo (net : Nat → Except Str Response) (retries : Nat)
    (attempt : Nat) (lastErr : Str) : GetOutcome :=
  if _h : attempt ≤ retries then
    let pause : List Nat := if attempt > 0 then [attempt] else []
    match net attempt with
    | .ok r => { attempts := 1, sleeps := pause, response := r }
    | .error e =>
      let rest := getGo net retries (attempt + 1) e
      { attempts := 1 + rest.attempts
        sleeps := pause ++ rest.sleeps
        response := rest.response }
  else
    { attempts := 0
      sleeps := []
      response := { error := some (failMsg (retries + 1) lastErr) } }
termination_by retries + 1 - attempt
decreasing_by omega

/-- Embeds `Client.Get` (client.go lines 59-80): run the retry loop from
attempt 0 with no recorded error. -/
def clientGet (net : Nat → Except Str Response) (retries : Nat) : GetOutcome :=
  getGo net retries 0 []

/-- Go zero value of `types.Result`, the content of an untouched slot of
the results slice allocated by `Scanner.Scan`. -/
def defaultResult : Result := { subdomain := [] }

/-- The aggregation loop of `scanner.scanWithWorkers` (scanner.go lines
130-133): each completed pair writes `results[index] = result`.  `order`
is the completion order in which pairs arrive on the result channel and
`probe i` is the ScanResult the worker computed for input index `i`. -/
def applyOrder (probe : Nat → Result) (order : List Nat)
    (init : List Result) : List Result :=
  order.foldl (fun acc idx => acc.set idx (probe idx)) init

/-- Embeds `scanner.scanWithWorkers` as observed through the results slice
(scanner.go lines 94-134): a slice of `subdomains.length` zero-value
slots, written once per completed probe in completion order; every
worker probes `subdomains[index]` with that subdomain's two network
responses. -/
def scanWithWorkers (E : RegexEngine) (fps : List Fingerprint)
    (subdomains : List Str) (net : Nat → Response × Response)
    (order : List Nat) : List Result :=
  applyOrder
    (fun i => scanSubdomain E fps (subdomains.getD i []) (net i).1 (net i).2)
    order
    (List.replicate subdomains.length defaultResult)

/-- Spec-side truth value of one fingerprint against a body, written
from the spec's words: a regex fingerprint matches iff its compiled
regex matches the raw body, a substring fingerprint iff the lowercased
body contains the lowercased pattern. -/
def fingerprintHolds (E : RegexEngine) (body : Str) (f : Fingerprint) : Bool :=
  if f.regex then
    match E.compile f.pattern with
    | .ok m => m body
    | .error _ => false
  else
    containsSub (toLowerStr body) (toLowerStr f.pattern)

/-- Spec-side selection rule: the per-protocol record whose body the
prober matches — https when its fetch had no error, else http when its
fetch had no error, else none. -/
def selectedResponse (httpsR httpR : HTTPResponse) : Option HTTPResponse :=
  if httpsR.error = [] then some httpsR
  else if httpR.error = [] then some httpR
  else none

section Lemmas

variable (E : RegexEngine)

lemma fingerprintMatch_snd_none (f : Fingerprint) (content : Str) (hs : Headers)
    (b : Bool) (h : fingerprintMatch E f content hs = (b, none)) :
    b = fingerprintHolds E content f := by
  unfold fingerprintMatch at h
  unfold fingerprintHolds
  by_cases hr : f.regex
  · simp only [hr, if_true] at h ⊢
    cases hc : E.compile f.pattern with
    | error e => rw [hc] at h; simp at h
    | ok m => rw [hc] at h; simp_all
  · simp only [hr] at h ⊢
    simp_all

lemma fingerprintMatch_regex_error (f : Fingerprint) (content : Str) (hs : Headers)
    (e : Str) (hr : f.regex = true) (hc : E.compile f.pattern = .error e) :
    (fingerprintMatch E f content hs).2
      = some ("invalid regex pattern ".data ++ f.pattern ++ ": ".data ++ e) := by
  unfold fingerprintMatch
  simp [hr, hc]

lemma fingerprintsMatch_filter (fps : List Fingerprint) (content : Str)
    (hs : Headers) (h : (fingerprintsMatch E fps content hs).2 = none) :
    (fingerprintsMatch E fps content hs).1
      = fps.filter (fingerprintHolds E content) := by
  induction fps with
  | nil => simp [fingerprintsMatch]
  | cons f rest ih =>
    rw [fingerprintsMatch] at h ⊢
    cases hf : fingerprintMatch E f content hs with
    | mk b oe =>
      rw [hf] at h
      cases oe with
      | some e => simp at h
      | none =>
        cases hrest : fingerprintsMatch E rest content hs with
        | mk ms oe' =>
          rw [hrest] at h
          cases oe' with
          | some e => simp at h
          | none =>
            have hms : ms = rest.filter (fingerprintHolds E content) := by
              have := ih (by rw [hrest])
              rw [hrest] at this
              simpa using this
            have hb : b = fingerprintHolds E content f :=
              fingerprintMatch_snd_none E f content hs b hf
            simp only [List.filter_cons, ← hb, hms]

lemma fingerprintsMatch_failfast (fps : List Fingerprint) (content : Str)
    (hs : Headers)
    (h : ∃ f ∈ fps, f.regex = true ∧ ∃ e, E.compile f.pattern = .error e) :
    (fingerprintsMatch E fps content hs).1 = []
      ∧ ∃ e, (fingerprintsMatch E fps content hs).2 = some e := by
  induction fps with
  | nil => rcases h with ⟨f, hf, _⟩; simp at hf
  | cons f rest ih =>
    rw [fingerprintsMatch]
    cases hf : fingerprintMatch E f content hs with
    | mk b oe =>
      cases oe with
      | some e => simp
      | none =>
        rcases h with ⟨g, hg, hgr, e, hge⟩
        rcases List.mem_cons.mp hg with hgf | hgrest
        · subst hgf
          have := fingerprintMatch_regex_error E g content hs e hgr hge
          rw [hf] at this; simp at this
        · rcases ih ⟨g, hgrest, hgr, e, hge⟩ with ⟨h1, e', h2⟩
          cases hrest : fingerprintsMatch E rest content hs with
          | mk ms oe' =>
            rw [hrest] at h2
            cases oe' with
            | some e'' => simp
            | none => simp at h2

end Lemmas

/-! Concrete instances used by the witnesses: a small regexp engine in
which only the pattern `(` fails to compile, and three catalog
fingerprints (two substring ones from the built-in catalog, one with an
invalid regex). -/

/-- A concrete regexp engine: every pattern except `(` compiles, to a
substring test; `(` fails like in Go's regexp package. -/
def demoEngine : RegexEngine :=
  ⟨fun p =>
    if p = "(".data then .error ("missing closing )".data)
    else .ok (fun c => containsSub c p)⟩

/-- The built-in GitHub Pages substring fingerprint (part_000). -/
def fpGitHub : Fingerprint :=
  { service := "GitHub Pages".data
    pattern := "There isn't a GitHub Pages site here.".data
    notes := "Indicates a CNAME pointing to GitHub Pages without content".data
    regex := false }

/-- A substring fingerprint with the spec's `Not Found` test pattern. -/
def fpNotFound : Fingerprint :=
  { service := "Generic".data
    pattern := "Not Found".data
    notes := []
    regex := false }

/-- A fingerprint whose regex pattern `(` does not compile. -/
def fpBadRegex : Fingerprint :=
  { service := "Broken".data
    pattern := "(".data
    notes := []
    regex := true }

/-- C4: for every catalog containing at least one fingerprint with
`regex = true` whose pattern fails to compile, the matcher returns an
error and an empty match list for that invocation — no partial results
from the valid fingerprints are returned. -/
theorem match_failfast_on_bad_regex (E : RegexEngine) (fps : List Fingerprint)
    (content : Str) (hs : Headers)
    (h : ∃ f ∈ fps, f.regex = true ∧ ∃ e, E.compile f.pattern = .error e) :
    (fingerprintsMatch E fps content hs).1 = []
      ∧ ∃ e, (fingerprintsMatch E fps content hs).2 = some e :=
  fingerprintsMatch_failfast E fps content hs h

/-- Witness for C4: a catalog with a valid substring fingerprint and an
invalid `(` regex fingerprint fails as a whole. -/
theorem match_failfast_on_bad_regex_witness :
    (fingerprintsMatch demoEngine [fpGitHub, fpBadRegex] ("zzz".data) []).1 = []
      ∧ ∃ e, (fingerprintsMatch demoEngine [fpGitHub, fpBadRegex] ("zzz".data) []).2
          = some e :=
  match_failfast_on_bad_regex demoEngine [fpGitHub, fpBadRegex] ("zzz".data) []
    ⟨fpBadRegex, by simp, rfl, ("missing closing )".data), rfl⟩

/-- C5: when no pattern fails to compile, the matcher returns exactly the
fingerprints that hold, in catalog order; a regex fingerprint holds iff
its compiled regex matches the raw body, a substring fingerprint iff the
lowercased body contains the lowercased pattern. -/
theorem match_semantics (E : RegexEngine) (fps : List Fingerprint)
    (content : Str) (hs : Headers)
    (h : (fingerprintsMatch E fps content hs).2 = none) :
    (fingerprintsMatch E fps content hs).1 = fps.filter (fingerprintHolds E content)
  ∧ (∀ f : Fingerprint, f.regex = false →
      fingerprintMatch E f content hs
        = (containsSub (toLowerStr content) (toLowerStr f.pattern), none))
  ∧ (∀ f : Fingerprint, ∀ m : Str → Bool, f.regex = true →
      E.compile f.pattern = .ok m →
      fingerprintMatch E f content hs = (m content, none)) := by
  refine ⟨fingerprintsMatch_filter E fps content hs h, ?_, ?_⟩
  · intro f hr
    unfold fingerprintMatch
    simp [hr]
  · intro f m hr hc
    unfold fingerprintMatch
    simp [hr, hc]

/-- Witness for C5: the substring pattern `Not Found` matches the body
`...not founD site...` case-insensitively and is returned. -/
theorem match_semantics_witness :
    (fingerprintsMatch demoEngine [fpNotFound, fpGitHub]
        ("...not founD site...".data) []).1
      = [fpNotFound, fpGitHub].filter
          (fingerprintHolds demoEngine ("...not founD site...".data))
  ∧ (∀ f : Fingerprint, f.regex = false →
      fingerprintMatch demoEngine f ("...not founD site...".data) []
        = (containsSub (toLowerStr ("...not founD site...".data))
            (toLowerStr f.pattern), none))
  ∧ (∀ f : Fingerprint, ∀ m : Str → Bool, f.regex = true →
      demoEngine.compile f.pattern = .ok m →
      fingerprintMatch demoEngine f ("...not founD site...".data) []
        = (m ("...not founD site...".data), none)) :=
  match_semantics demoEngine [fpNotFound, fpGitHub]
    ("...not founD site...".data) [] (by decide)

/-- C10: the matcher's output never depends on the headers argument —
only the body is tested against fingerprints. -/
theorem match_headers_independent (E : RegexEngine) (fps : List Fingerprint)
    (content : Str) (h1 h2 : Headers) :
    fingerprintsMatch E fps content h1 = fingerprintsMatch E fps content h2 := by
  induction fps with
  | nil => rfl
  | cons f rest ih =>
    rw [fingerprintsMatch]
    conv_rhs => rw [fingerprintsMatch]
    have hf : fingerprintMatch E f content h1 = fingerprintMatch E f content h2 := rfl
    rw [hf, ih]

/-- Case analysis on `checkVulnerabilities`: the matcher either fails
(status "error"), or returns matches (status "vulnerable" with one
Evidence per match), or returns none (status "not vulnerable"). -/
lemma checkVulnerabilities_cases (E : RegexEngine) (fps : List Fingerprint)
    (base : Result) (hr : HTTPResponse) :
    (∃ ms e, fingerprintsMatch E fps hr.body hr.headers = (ms, some e)
      ∧ checkVulnerabilities E fps base hr
        = { base with
            status := "error".data
            error := "fingerprint matching error: ".data ++ e })
  ∨ (∃ ms, fingerprintsMatch E fps hr.body hr.headers = (ms, none) ∧ ms ≠ []
      ∧ checkVulnerabilities E fps base hr
        = { base with
            vulnerable := true
            status := "vulnerable".data
            evidence := base.evidence ++ ms.map (evidenceFor hr.body) })
  ∨ (fingerprintsMatch E fps hr.body hr.headers = ([], none)
      ∧ checkVulnerabilities E fps base hr
        = { base with status := "not vulnerable".data }) := by
  unfold checkVulnerabilities
  cases hm : fingerprintsMatch E fps hr.body hr.headers with
  | mk ms oe =>
    cases oe with
    | some e => exact Or.inl ⟨ms, e, rfl, rfl⟩
    | none =>
      by_cases hlen : ms.length > 0
      · refine Or.inr (Or.inl ⟨ms, rfl, ?_, ?_⟩)
        · exact List.ne_nil_of_length_pos hlen
        · simp [hlen]
      · have hnil : ms = [] := by
          cases ms with
          | nil => rfl
          | cons a t => simp at hlen
        subst hnil
        exact Or.inr (Or.inr ⟨rfl, by simp⟩)

/-- The scan result of one subdomain, spelled as the if-chain of
scanner.go lines 194-206 over the two per-protocol records. -/
lemma scanSubdomain_eq (E : RegexEngine) (fps : List Fingerprint)
    (s : Str) (httpsNet httpNet : Response) :
    scanSubdomain E fps s httpsNet httpNet
      = (if (tryProtocol s ("https".data) httpsNet).error = [] then
          checkVulnerabilities E fps
            { subdomain := s
              httpsResponse := some (tryProtocol s ("https".data) httpsNet)
              httpResponse := some (tryProtocol s ("http".data) httpNet) }
            (tryProtocol s ("https".data) httpsNet)
        else if (tryProtocol s ("http".data) httpNet).error = [] then
          checkVulnerabilities E fps
            { subdomain := s
              httpsResponse := some (tryProtocol s ("https".data) httpsNet)
              httpResponse := some (tryProtocol s ("http".data) httpNet) }
            (tryProtocol s ("http".data) httpNet)
        else
          { subdomain := s
            httpsResponse := some (tryProtocol s ("https".data) httpsNet)
            httpResponse := some (tryProtocol s ("http".data) httpNet)
            status := "error".data
            error :=
              if (tryProtocol s ("https".data) httpsNet).error ≠ [] then
                (tryProtocol s ("https".data) httpsNet).error
              else if (tryProtocol s ("http".data) httpNet).error ≠ [] then
                (tryProtocol s ("http".data) httpNet).error
              else "both HTTPS and HTTP requests failed".data }) := rfl

lemma status_strings_distinct :
    ("error".data : Str) ≠ "vulnerable".data
  ∧ ("not vulnerable".data : Str) ≠ "vulnerable".data
  ∧ ("error".data : Str) ≠ "not vulnerable".data
  ∧ ("vulnerable".data : Str) ≠ "error".data
  ∧ ("not vulnerable".data : Str) ≠ "error".data := by
  refine ⟨?_, ?_, ?_, ?_, ?_⟩ <;> decide

/-- C1: in every ScanResult produced by probing a subdomain, the
vulnerable flag, the status being "vulnerable" and the evidence being
non-empty are equivalent; and the status is "error" exactly when both
protocol fetches failed or the matcher invocation itself failed. -/
theorem scanResult_invariants (E : RegexEngine) (fps : List Fingerprint)
    (s : Str) (httpsNet httpNet : Response) :
    ((scanSubdomain E fps s httpsNet httpNet).vulnerable = true
      ↔ (scanSubdomain E fps s httpsNet httpNet).status = "vulnerable".data)
  ∧ ((scanSubdomain E fps s httpsNet httpNet).vulnerable = true
      ↔ (scanSubdomain E fps s httpsNet httpNet).evidence ≠ [])
  ∧ ((scanSubdomain E fps s httpsNet httpNet).status = "error".data
      ↔ ((tryProtocol s ("https".data) httpsNet).error ≠ []
            ∧ (tryProtocol s ("http".data) httpNet).error ≠ [])
        ∨ ∃ hr, selectedResponse (tryProtocol s ("https".data) httpsNet)
              (tryProtocol s ("http".data) httpNet) = some hr
            ∧ (fingerprintsMatch E fps hr.body hr.headers).2.isSome) := by
  obtain ⟨d1, d2, d3, d4, d5⟩ := status_strings_distinct
  rw [scanSubdomain_eq]
  set httpsR := tryProtocol s ("https".data) httpsNet with hhs
  set httpR := tryProtocol s ("http".data) httpNet with hht
  by_cases h1 : httpsR.error = []
  · rw [if_pos h1]
    have hsel : selectedResponse httpsR httpR = some httpsR := by
      unfold selectedResponse; rw [if_pos h1]
    rcases checkVulnerabilities_cases E fps
        { subdomain := s, httpsResponse := some httpsR, httpResponse := some httpR }
        httpsR with ⟨ms, e, hm, hcv⟩ | ⟨ms, hm, hne, hcv⟩ | ⟨hm, hcv⟩ <;>
      rw [hcv]
    · refine ⟨by simp [d1], by simp, ?_⟩
      simp only [hsel]
      simp [h1, hm]
    · refine ⟨by simp, by simp [hne, List.map_eq_nil_iff], ?_⟩
      simp only [hsel]
      simp [d4, hm, h1]
    · refine ⟨by simp [d2], by simp, ?_⟩
      simp only [hsel]
      simp [d5, hm, h1]
  · rw [if_neg h1]
    by_cases h2 : httpR.error = []
    · rw [if_pos h2]
      have hsel : selectedResponse httpsR httpR = some httpR := by
        unfold selectedResponse; rw [if_neg h1, if_pos h2]
      rcases checkVulnerabilities_cases E fps
          { subdomain := s, httpsResponse := some httpsR, httpResponse := some httpR }
          httpR with ⟨ms, e, hm, hcv⟩ | ⟨ms, hm, hne, hcv⟩ | ⟨hm, hcv⟩ <;>
        rw [hcv]
      · refine ⟨by simp [d1], by simp, ?_⟩
        simp only [hsel]
        simp [h2, hm]
      · refine ⟨by simp, by simp [hne, List.map_eq_nil_iff], ?_⟩
        simp only [hsel]
        simp [d4, h2, hm]
      · refine ⟨by simp [d2], by simp, ?_⟩
        simp only [hsel]
        simp [d5, h2, hm]
    · rw [if_neg h2]
      have hsel : selectedResponse httpsR httpR = none := by
        unfold selectedResponse; rw [if_neg h1, if_neg h2]
      refine ⟨by simp [d1], by simp, ?_⟩
      simp only [hsel]
      simp [h1, h2]

/-- C2: every ScanResult produced by probing a subdomain carries one of
the three status values — vulnerable, not vulnerable, or error. -/
theorem scanStatus_enum (E : RegexEngine) (fps : List Fingerprint)
    (s : Str) (httpsNet httpNet : Response) :
    (scanSubdomain E fps s httpsNet httpNet).status = "vulnerable".data
  ∨ (scanSubdomain E fps s httpsNet httpNet).status = "not vulnerable".data
  ∨ (scanSubdomain E fps s httpsNet httpNet).status = "error".data := by
  rw [scanSubdomain_eq]
  set httpsR := tryProtocol s ("https".data) httpsNet with hhs
  set httpR := tryProtocol s ("http".data) httpNet with hht
  by_cases h1 : httpsR.error = []
  · rw [if_pos h1]
    rcases checkVulnerabilities_cases E fps
        { subdomain := s, httpsResponse := some httpsR, httpResponse := some httpR }
        httpsR with ⟨ms, e, hm, hcv⟩ | ⟨ms, hm, hne, hcv⟩ | ⟨hm, hcv⟩ <;>
      rw [hcv]
    · exact Or.inr (Or.inr rfl)
    · exact Or.inl rfl
    · exact Or.inr (Or.inl rfl)
  · rw [if_neg h1]
    by_cases h2 : httpR.error = []
    · rw [if_pos h2]
      rcases checkVulnerabilities_cases E fps
          { subdomain := s, httpsResponse := some httpsR, httpResponse := some httpR }
          httpR with ⟨ms, e, hm, hcv⟩ | ⟨ms, hm, hne, hcv⟩ | ⟨hm, hcv⟩ <;>
        rw [hcv]
      · exact Or.inr (Or.inr rfl)
      · exact Or.inl rfl
      · exact Or.inr (Or.inl rfl)
    · rw [if_neg h2]
      exact Or.inr (Or.inr rfl)

/-- C3: the prober stores both per-protocol fetch records on the
ScanResult; when the https fetch has no error the result is classified
from the https record, otherwise from the http record when that one has
no error; when both failed the status is "error" and the message prefers
the https failure text, then the http failure text, then the generic
both-protocols-failed text. -/
theorem scanProtocol_selection (E : RegexEngine) (fps : List Fingerprint)
    (s : Str) (httpsNet httpNet : Response) :
    (scanSubdomain E fps s httpsNet httpNet).httpsResponse
        = some (tryProtocol s ("https".data) httpsNet)
  ∧ (scanSubdomain E fps s httpsNet httpNet).httpResponse
        = some (tryProtocol s ("http".data) httpNet)
  ∧ ((tryProtocol s ("https".data) httpsNet).error = [] →
      scanSubdomain E fps s httpsNet httpNet
        = checkVulnerabilities E fps
            { subdomain := s
              httpsResponse := some (tryProtocol s ("https".data) httpsNet)
              httpResponse := some (tryProtocol s ("http".data) httpNet) }
            (tryProtocol s ("https".data) httpsNet))
  ∧ ((tryProtocol s ("https".data) httpsNet).error ≠ [] →
      (tryProtocol s ("http".data) httpNet).error = [] →
      scanSubdomain E fps s httpsNet httpNet
        = checkVulnerabilities E fps
            { subdomain := s
              httpsResponse := some (tryProtocol s ("https".data) httpsNet)
              httpResponse := some (tryProtocol s ("http".data) httpNet) }
            (tryProtocol s ("http".data) httpNet))
  ∧ ((tryProtocol s ("https".data) httpsNet).error ≠ [] →
      (tryProtocol s ("http".data) httpNet).error ≠ [] →
      (scanSubdomain E fps s httpsNet httpNet).status = "error".data
        ∧ (scanSubdomain E fps s httpsNet httpNet).error
          = (if (tryProtocol s ("https".data) httpsNet).error ≠ [] then
              (tryProtocol s ("https".data) httpsNet).error
            else if (tryProtocol s ("http".data) httpNet).error ≠ [] then
              (tryProtocol s ("http".data) httpNet).error
            else "both HTTPS and HTTP requests failed".data)) := by
  rw [scanSubdomain_eq]
  set httpsR := tryProtocol s ("https".data) httpsNet with hhs
  set httpR := tryProtocol s ("http".data) httpNet with hht
  by_cases h1 : httpsR.error = []
  · rw [if_pos h1]
    refine ⟨?_, ?_, fun _ => rfl, fun hc _ => absurd h1 hc, fun hc _ => absurd h1 hc⟩ <;>
      rcases checkVulnerabilities_cases E fps
          { subdomain := s, httpsResponse := some httpsR, httpResponse := some httpR }
          httpsR with ⟨ms, e, hm, hcv⟩ | ⟨ms, hm, hne, hcv⟩ | ⟨hm, hcv⟩ <;>
        rw [hcv]
  · rw [if_neg h1]
    by_cases h2 : httpR.error = []
    · rw [if_pos h2]
      refine ⟨?_, ?_, fun hc => absurd hc h1, fun _ _ => rfl,
          fun _ hc => absurd h2 hc⟩ <;>
        rcases checkVulnerabilities_cases E fps
            { subdomain := s, httpsResponse := some httpsR, httpResponse := some httpR }
            httpR with ⟨ms, e, hm, hcv⟩ | ⟨ms, hm, hne, hcv⟩ | ⟨hm, hcv⟩ <;>
          rw [hcv]
    · rw [if_neg h2]
      exact ⟨rfl, rfl, fun hc => absurd hc h1, fun _ hc => absurd hc h2,
        fun _ _ => ⟨rfl, rfl⟩⟩

/-- Witness for C3: a subdomain whose https fetch fails with a TLS error
and whose http fetch fails with connection refused gets status "error"
and the https failure message. -/
theorem scanProtocol_selection_witness :
    (scanSubdomain demoEngine [fpGitHub] ("x.example.com".data)
        { error := some ("tls handshake failure".data) }
        { error := some ("connection refused".data) }).status = "error".data
  ∧ (scanSubdomain demoEngine [fpGitHub] ("x.example.com".data)
        { error := some ("tls handshake failure".data) }
        { error := some ("connection refused".data) }).error
      = (if (tryProtocol ("x.example.com".data) ("https".data)
              { error := some ("tls handshake failure".data) }).error ≠ [] then
          (tryProtocol ("x.example.com".data) ("https".data)
              { error := some ("tls handshake failure".data) }).error
        else if (tryProtocol ("x.example.com".data) ("http".data)
              { error := some ("connection refused".data) }).error ≠ [] then
          (tryProtocol ("x.example.com".data) ("http".data)
              { error := some ("connection refused".data) }).error
        else "both HTTPS and HTTP requests failed".data) :=
  (scanProtocol_selection demoEngine [fpGitHub] ("x.example.com".data)
      { error := some ("tls handshake failure".data) }
      { error := some ("connection refused".data) }).2.2.2.2
    (by decide) (by decide)

lemma indexOfSub_some (body pat : Str) (i : Nat)
    (h : indexOfSub body pat = some i) :
    pat.isPrefixOf (body.drop i) = true
      ∧ ∀ j < i, ¬ pat.isPrefixOf (body.drop j) = true := by
  induction body generalizing i with
  | nil =>
    rw [indexOfSub] at h
    by_cases hp : pat.isPrefixOf ([] : Str)
    · rw [if_pos hp] at h
      obtain rfl : i = 0 := by simpa using h.symm
      exact ⟨hp, by omega⟩
    · rw [if_neg hp] at h
      simp at h
  | cons c rest ih =>
    rw [indexOfSub] at h
    by_cases hp : pat.isPrefixOf (c :: rest)
    · rw [if_pos hp] at h
      obtain rfl : i = 0 := by simpa using h.symm
      exact ⟨hp, by omega⟩
    · rw [if_neg hp] at h
      rcases Option.map_eq_some'.mp h with ⟨i', hi', rfl⟩
      obtain ⟨h1, h2⟩ := ih i' hi'
      refine ⟨h1, ?_⟩
      intro j hj
      cases j with
      | zero => simpa using hp
      | succ j' => exact h2 j' (by omega)

lemma indexOfSub_none (body pat : Str)
    (h : indexOfSub body pat = none) :
    ∀ j, ¬ pat.isPrefixOf (body.drop j) = true := by
  induction body with
  | nil =>
    rw [indexOfSub] at h
    by_cases hp : pat.isPrefixOf ([] : Str)
    · rw [if_pos hp] at h; simp at h
    · rw [if_neg hp] at h
      intro j
      simpa using hp
  | cons c rest ih =>
    rw [indexOfSub] at h
    by_cases hp : pat.isPrefixOf (c :: rest)
    · rw [if_pos hp] at h; simp at h
    · rw [if_neg hp] at h
      have hrest : indexOfSub rest pat = none := by
        cases hr : indexOfSub rest pat with
        | none => rfl
        | some k => rw [hr] at h; simp at h
      intro j
      cases j with
      | zero => simpa using hp
      | succ j' => exact ih hrest j'

/-- C6: snippet extraction locates the first case-insensitive occurrence
of the literal pattern text in the body and returns the body slice from
100 before the match start through 100 after the match end, clipped to
the body's bounds; when the literal pattern text does not occur
case-insensitively the snippet is empty; and every Evidence record —
also for regex fingerprints — gets its snippet from this literal-text
extraction on the matched body. -/
theorem extractSnippet_spec (body pattern : Str) :
    (∀ i, indexOfSub (toLowerStr body) (toLowerStr pattern) = some i →
      ((toLowerStr pattern).isPrefixOf ((toLowerStr body).drop i) = true
          ∧ ∀ j < i, ¬ (toLowerStr pattern).isPrefixOf ((toLowerStr body).drop j) = true)
        ∧ extractSnippet body pattern
          = (body.take (min (i + pattern.length + 100) body.length)).drop (i - 100))
  ∧ ((∀ j, ¬ (toLowerStr pattern).isPrefixOf ((toLowerStr body).drop j) = true) →
      extractSnippet body pattern = [])
  ∧ (∀ (E : RegexEngine) (fps : List Fingerprint) (base : Result)
        (hr : HTTPResponse) (ms : List Fingerprint),
      fingerprintsMatch E fps hr.body hr.headers = (ms, none) → ms ≠ [] →
      (checkVulnerabilities E fps base hr).evidence
        = base.evidence ++ ms.map (fun m =>
            { service := m.service
              pattern := m.pattern
              notes := m.notes
              snippet := extractSnippet hr.body m.pattern })) := by
  refine ⟨?_, ?_, ?_⟩
  · intro i hi
    refine ⟨indexOfSub_some _ _ _ hi, ?_⟩
    unfold extractSnippet
    rw [hi]
  · intro hocc
    cases hidx : indexOfSub (toLowerStr body) (toLowerStr pattern) with
    | none => unfold extractSnippet; rw [hidx]
    | some i =>
      obtain ⟨h1, _⟩ := indexOfSub_some _ _ _ hidx
      exact absurd h1 (hocc i)
  · intro E fps base hr ms hm hne
    rcases checkVulnerabilities_cases E fps base hr with
        ⟨ms', e, hm', _⟩ | ⟨ms', hm', _, hcv⟩ | ⟨hm', hcv⟩
    · rw [hm] at hm'; simp at hm'
    · rw [hm] at hm'
      obtain rfl : ms = ms' := by simpa using hm'
      rw [hcv]
      simp [evidenceFor]
    · rw [hm] at hm'
      obtain rfl : ms = [] := by simpa using hm'
      exact absurd rfl hne

/-- Witness for C6: in body `xxNot Foundyy` the pattern `not found`
first occurs case-insensitively at index 2, and the snippet is the
clipped 100-context slice around it. -/
theorem extractSnippet_spec_witness :
    (((toLowerStr ("not found".data)).isPrefixOf
          ((toLowerStr ("xxNot Foundyy".data)).drop 2) = true
        ∧ ∀ j < 2, ¬ (toLowerStr ("not found".data)).isPrefixOf
            ((toLowerStr ("xxNot Foundyy".data)).drop j) = true)
      ∧ extractSnippet ("xxNot Foundyy".data) ("not found".data)
        = (("xxNot Foundyy".data).take
            (min (2 + ("not found".data).length + 100)
              ("xxNot Foundyy".data).length)).drop (2 - 100)) :=
  (extractSnippet_spec ("xxNot Foundyy".data) ("not found".data)).1 2 (by decide)

/-- C7: the truncation stage of readBody returns bodies of at most
16384 units verbatim; a longer body of length L becomes its first 8192
units, the literal separator, and its last 8192 units, for a fixed
output length of 16405 independent of L. -/
theorem truncateBody_spec (data : Str) :
    (data.length ≤ 16384 → truncateBody data = data)
  ∧ (16384 < data.length →
      truncateBody data
          = data.take 8192 ++ truncSep ++ data.drop (data.length - 8192)
        ∧ (truncateBody data).length = 16405) := by
  constructor
  · intro h
    unfold truncateBody
    rw [if_pos h]
  · intro h
    have hif : truncateBody data
        = data.take 8192 ++ truncSep ++ data.drop (data.length - 8192) := by
      unfold truncateBody
      rw [if_neg (by omega)]
    refine ⟨hif, ?_⟩
    rw [hif]
    have hsep : truncSep.length = 21 := by decide
    simp only [List.length_append, List.length_take, List.length_drop, hsep]
    omega

/-- Witness for C7: a 16385-unit body truncates to the fixed shape and
fixed length 16405. -/
theorem truncateBody_spec_witness :
    truncateBody (List.replicate 16385 'a')
        = (List.replicate 16385 'a').take 8192 ++ truncSep
          ++ (List.replicate 16385 'a').drop ((List.replicate 16385 'a').length - 8192)
      ∧ (truncateBody (List.replicate 16385 'a')).length = 16405 :=
  (truncateBody_spec (List.replicate 16385 'a')).2
    (by simp only [List.length_replicate]; omega)

lemma getGo_attempts_le (net : Nat → Except Str Response) (retries : Nat) :
    ∀ d a e, retries + 1 - a ≤ d →
      (getGo net retries a e).attempts ≤ retries + 1 - a := by
  intro d
  induction d with
  | zero =>
    intro a e h
    have ha : ¬ a ≤ retries := by omega
    rw [getGo, dif_neg ha]
    simp
  | succ d ih =>
    intro a e h
    by_cases ha : a ≤ retries
    · rw [getGo, dif_pos ha]
      cases hn : net a with
      | ok r =>
        simp only [hn]
        omega
      | error e' =>
        simp only [hn]
        have := ih (a + 1) e' (by omega)
        omega
    · rw [getGo, dif_neg ha]
      simp

lemma getGo_sleeps (net : Nat → Except Str Response) (retries : Nat) :
    ∀ d a e, retries + 1 - a ≤ d →
      (getGo net retries a e).sleeps
        = (List.range' a (getGo net retries a e).attempts).filter
            (fun x => decide (0 < x)) := by
  intro d
  induction d with
  | zero =>
    intro a e h
    have ha : ¬ a ≤ retries := by omega
    rw [getGo, dif_neg ha]
    simp
  | succ d ih =>
    intro a e h
    by_cases ha : a ≤ retries
    · rw [getGo, dif_pos ha]
      cases hn : net a with
      | ok r =>
        simp only [hn, List.range'_one, List.filter_cons, List.filter_nil]
        cases a with
        | zero => simp
        | succ a' => simp
      | error e' =>
        simp only [hn]
        have hrest := ih (a + 1) e' (by omega)
        have hstep : (1 + (getGo net retries (a + 1) e').attempts)
            = (getGo net retries (a + 1) e').attempts + 1 := by omega
        rw [hstep, List.range'_succ, List.filter_cons, hrest]
        cases a with
        | zero => simp
        | succ a' => simp
    · rw [getGo, dif_neg ha]
      simp

lemma getGo_success (net : Nat → Except Str Response) (retries : Nat) :
    ∀ d a e i r, retries + 1 - a ≤ d →
      a ≤ i → i ≤ retries → net i = .ok r →
      (∀ j, a ≤ j → j < i → ∃ er, net j = .error er) →
      (getGo net retries a e).attempts = i + 1 - a
        ∧ (getGo net retries a e).response = r := by
  intro d
  induction d with
  | zero =>
    intro a e i r h hai hir _ _
    omega
  | succ d ih =>
    intro a e i r h hai hir hok hfail
    have ha : a ≤ retries := by omega
    rw [getGo, dif_pos ha]
    by_cases heq : a = i
    · subst heq
      simp only [hok]
      exact ⟨by omega, trivial⟩
    · obtain ⟨er, hner⟩ := hfail a le_rfl (by omega)
      simp only [hner]
      obtain ⟨h1, h2⟩ := ih (a + 1) er i r (by omega) (by omega) hir hok
        (fun j hj1 hj2 => hfail j (by omega) hj2)
      refine ⟨?_, h2⟩
      simp only [h1]
      omega

lemma getGo_allfail (net : Nat → Except Str Response) (retries : Nat) :
    ∀ (d a : Nat) (e : Str) (f : Nat → Str), retries + 1 - a ≤ d → a ≤ retries →
      (∀ i, a ≤ i → i ≤ retries → net i = .error (f i)) →
      (getGo net retries a e).attempts = retries + 1 - a
        ∧ (getGo net retries a e).response
          = { error := some (failMsg (retries + 1) (f retries)) } := by
  intro d
  induction d with
  | zero =>
    intro a e f h ha _
    omega
  | succ d ih =>
    intro a e f h ha hfail
    rw [getGo, dif_pos ha]
    have hna : net a = .error (f a) := hfail a le_rfl ha
    simp only [hna]
    by_cases har : a = retries
    · rw [getGo, dif_neg (show ¬ a + 1 ≤ retries by omega)]
      refine ⟨by show 1 + (0 : Nat) = retries + 1 - a; omega, ?_⟩
      show ({ error := some (failMsg (retries + 1) (f a)) } : Response) = _
      rw [har]
    · obtain ⟨h1, h2⟩ := ih (a + 1) (f a) f (by omega) (by omega)
        (fun i hi1 hi2 => hfail i (by omega) hi2)
      refine ⟨?_, h2⟩
      simp only [h1]
      omega

lemma filter_pos_range (k : Nat) :
    (List.range' 0 k).filter (fun x => decide (0 < x))
      = (List.range k).drop 1 := by
  cases k with
  | zero => rfl
  | succ n =>
    rw [List.range_eq_range', List.range'_succ, List.filter_cons]
    simp only [decide_eq_true_eq, Nat.lt_irrefl, if_false]
    rw [List.drop_one, List.tail_cons]
    refine List.filter_eq_self.mpr ?_
    intro x hx
    have := List.mem_range'_1.mp hx
    simp
    omega

/-- C8: Client.Get makes at most retries+1 request attempts; before the
zero-based attempt number i it sleeps i seconds (so no sleep before the
first); the first attempt that yields a response is returned immediately
(whatever its status code); and when every attempt fails the returned
response carries an error naming the total attempt count and wrapping
the last underlying error. -/
theorem clientGet_spec (net : Nat → Except Str Response) (retries : Nat) :
    (clientGet net retries).attempts ≤ retries + 1
  ∧ (clientGet net retries).sleeps
      = (List.range (clientGet net retries).attempts).drop 1
  ∧ (∀ i r, i ≤ retries → net i = .ok r →
      (∀ j, j < i → ∃ er, net j = .error er) →
      (clientGet net retries).attempts = i + 1
        ∧ (clientGet net retries).response = r)
  ∧ (∀ f : Nat → Str, (∀ i, i ≤ retries → net i = .error (f i)) →
      (clientGet net retries).attempts = retries + 1
        ∧ (clientGet net retries).response
          = { error := some (failMsg (retries + 1) (f retries)) }) := by
  refine ⟨?_, ?_, ?_, ?_⟩
  · have := getGo_attempts_le net retries (retries + 1) 0 [] (by omega)
    simpa [clientGet] using this
  · have := getGo_sleeps net retries (retries + 1) 0 [] (by omega)
    unfold clientGet at this ⊢
    rw [this, filter_pos_range]
  · intro i r hir hok hfail
    have := getGo_success net retries (retries + 1) 0 [] i r (by omega)
      (by omega) hir hok (fun j _ hj2 => hfail j hj2)
    simpa [clientGet] using this
  · intro f hfail
    have := getGo_allfail net retries (retries + 1) 0 [] f (by omega) (by omega)
      (fun i _ hi2 => hfail i hi2)
    simpa [clientGet] using this

/-- A network in which the second attempt yields a 404 response and
every other attempt fails at the transport level. -/
def demoNet : Nat → Except Str Response := fun i =>
  if i = 1 then .ok { statusCode := 404 }
  else .error ("dial tcp: connection refused".data)

/-- Witness for C8: with 3 retries against demoNet, the loop stops after
the second attempt and returns the 404 response unchanged. -/
theorem clientGet_spec_witness :
    (clientGet demoNet 3).attempts = 1 + 1
      ∧ (clientGet demoNet 3).response = { statusCode := 404 } :=
  (clientGet_spec demoNet 3).2.2.1 1 { statusCode := 404 } (by omega) rfl
    (by
      intro j hj
      have hj0 : j = 0 := by omega
      subst hj0
      exact ⟨("dial tcp: connection refused".data), rfl⟩)

lemma checkVulnerabilities_subdomain (E : RegexEngine) (fps : List Fingerprint)
    (base : Result) (hr : HTTPResponse) :
    (checkVulnerabilities E fps base hr).subdomain = base.subdomain := by
  rcases checkVulnerabilities_cases E fps base hr with
      ⟨_, _, _, hcv⟩ | ⟨_, _, _, hcv⟩ | ⟨_, hcv⟩ <;> rw [hcv]

lemma scanSubdomain_subdomain (E : RegexEngine) (fps : List Fingerprint)
    (s : Str) (httpsNet httpNet : Response) :
    (scanSubdomain E fps s httpsNet httpNet).subdomain = s := by
  rw [scanSubdomain_eq]
  by_cases h1 : (tryProtocol s ("https".data) httpsNet).error = []
  · rw [if_pos h1, checkVulnerabilities_subdomain]
  · rw [if_neg h1]
    by_cases h2 : (tryProtocol s ("http".data) httpNet).error = []
    · rw [if_pos h2, checkVulnerabilities_subdomain]
    · rw [if_neg h2]

lemma applyOrder_length (probe : Nat → Result) :
    ∀ (l : List Nat) (init : List Result),
      (applyOrder probe l init).length = init.length := by
  intro l
  induction l with
  | nil => intro init; rfl
  | cons j t ih =>
    intro init
    show (applyOrder probe t (init.set j (probe j))).length = init.length
    rw [ih, List.length_set]

lemma applyOrder_not_mem (probe : Nat → Result) :
    ∀ (l : List Nat) (init : List Result) (i : Nat) (d : Result), i ∉ l →
      (applyOrder probe l init).getD i d = init.getD i d := by
  intro l
  induction l with
  | nil => intro init i d _; rfl
  | cons j t ih =>
    intro init i d hni
    have hij : i ≠ j := fun hc => hni (hc ▸ List.mem_cons_self j t)
    have hnt : i ∉ t := fun hc => hni (List.mem_cons_of_mem j hc)
    show (applyOrder probe t (init.set j (probe j))).getD i d = init.getD i d
    rw [ih _ i d hnt, List.getD_eq_getElem?_getD, List.getD_eq_getElem?_getD,
      List.getElem?_set_ne (fun hc => hij hc.symm)]

lemma applyOrder_mem (probe : Nat → Result) :
    ∀ (l : List Nat) (init : List Result) (i : Nat) (d : Result),
      i ∈ l → i < init.length →
      (applyOrder probe l init).getD i d = probe i := by
  intro l
  induction l with
  | nil => intro init i d hmem _; simp at hmem
  | cons j t ih =>
    intro init i d hmem hlen
    show (applyOrder probe t (init.set j (probe j))).getD i d = probe i
    by_cases hit : i ∈ t
    · exact ih _ i d hit (by rw [List.length_set]; exact hlen)
    · have hij : i = j := by
        rcases List.mem_cons.mp hmem with h | h
        · exact h
        · exact absurd h hit
      subst hij
      rw [applyOrder_not_mem probe t _ i d hit, List.getD_eq_getElem?_getD,
        List.getElem?_set_self hlen]
      rfl

/-- C9: for an input list of N subdomains scanned in worker-pool mode,
the results slice has length N and, for every completion order that
handles each input index exactly once, slot i holds the ScanResult of
input subdomain i — whose subdomain field is the i-th input string —
independent of the order in which probes complete. -/
theorem scanWorkers_ordering (E : RegexEngine) (fps : List Fingerprint)
    (subdomains : List Str) (net : Nat → Response × Response)
    (order : List Nat) (hperm : order.Perm (List.range subdomains.length)) :
    (scanWithWorkers E fps subdomains net order).length = subdomains.length
  ∧ ∀ i, i < subdomains.length →
      (scanWithWorkers E fps subdomains net order).getD i defaultResult
          = scanSubdomain E fps (subdomains.getD i []) (net i).1 (net i).2
        ∧ ((scanWithWorkers E fps subdomains net order).getD i
            defaultResult).subdomain = subdomains.getD i [] := by
  constructor
  · show (applyOrder _ order _).length = _
    rw [applyOrder_length, List.length_replicate]
  · intro i hi
    have hmem : i ∈ order := hperm.mem_iff.mpr (List.mem_range.mpr hi)
    have hval := applyOrder_mem
      (fun k => scanSubdomain E fps (subdomains.getD k []) (net k).1 (net k).2)
      order (List.replicate subdomains.length defaultResult) i defaultResult
      hmem (by rw [List.length_replicate]; exact hi)
    refine ⟨hval, ?_⟩
    rw [show (scanWithWorkers E fps subdomains net order).getD i defaultResult
        = scanSubdomain E fps (subdomains.getD i []) (net i).1 (net i).2 from hval,
      scanSubdomain_subdomain]

/-- Three input subdomains for the ordering witness. -/
def demoSubdomains : List Str := ["a".data, "b".data, "c".data]

/-- A completion order in which the last probe finishes first. -/
def demoOrder : List Nat := [2, 0, 1]

/-- Witness for C9: with three subdomains completing out of order, every
slot still holds the result of its own input subdomain. -/
theorem scanWorkers_ordering_witness :
    (scanWithWorkers demoEngine [fpGitHub] demoSubdomains
        (fun _ => ({}, {})) demoOrder).length = demoSubdomains.length
  ∧ ∀ i, i < demoSubdomains.length →
      (scanWithWorkers demoEngine [fpGitHub] demoSubdomains
          (fun _ => ({}, {})) demoOrder).getD i defaultResult
          = scanSubdomain demoEngine [fpGitHub] (demoSubdomains.getD i [])
              ({} : Response) ({} : Response)
        ∧ ((scanWithWorkers demoEngine [fpGitHub] demoSubdomains
            (fun _ => ({}, {})) demoOrder).getD i
              defaultResult).subdomain = demoSubdomains.getD i [] :=
  scanWorkers_ordering demoEngine [fpGitHub] demoSubdomains
    (fun _ => ({}, {})) demoOrder (by decide)

end Subtake
